import Mathlib

/-!
Verification of the hierarchical configuration resolver of the
`aws_toolkit` repository (`aws_toolkit/core/config.py`, class `Config`).

The embedding models Python values flowing through the resolver as a
tagged tree `Value` (scalars plus string-keyed mappings, mappings being
insertion-ordered association lists exactly as Python dicts are), and
translates each method of `Config` into a Lean function:

  * `Config.merge_config`  ← `Config._merge_config`
  * `Config.get` / `Config.getKeys` ← `Config.get`
  * `Config.set` / `Config.setGo`   ← `Config.set` (fallible in Python —
    it raises `TypeError` when a non-final path segment holds a scalar —
    so it returns `Option` here)
  * `Config.load_env_vars` ← `Config._load_env_vars`
  * `Config.load_config_file` ← `Config._load_config_file`
  * `Config.init` ← `Config.__init__`
  * `Config.aws_config` ← property `Config.aws_config`

External effects are passed in as explicit parameters: the process
environment as `Env := String → Option String` (the effective environment
after the optional `.env` file has been loaded by `load_dotenv`), the file
system as `String → Option String` (path to raw content, `none` meaning
`FileNotFoundError`), and the YAML parser `yaml.safe_load` as a function
`String → Except String Value` (error carrying the parse diagnostic).
-/

/-- The pieces of a character list split on the dot character: models
Python `"…".split(".")` at the character level.  Python semantics for a
one-character separator: the empty string yields `[""]`, adjacent or
leading/trailing separators yield empty pieces. -/
def splitDotChars : List Char → List (List Char)
  | [] => [[]]
  | c :: cs =>
      match splitDotChars cs with
      | [] => [[]]
      | r :: rs => if c = '.' then [] :: r :: rs else (c :: r) :: rs

/-- Python `key.split(".")`. -/
def pySplitDot (s : String) : List String :=
  (splitDotChars s.data).map fun cs => String.mk cs

/-- A Python value as used by the resolver: a scalar (`None`, bool, int,
string) or a dict with string keys.  Dicts are insertion-ordered
association lists, matching Python dict semantics. -/
inductive Value where
  | null : Value
  | bool : Bool → Value
  | int : Int → Value
  | str : String → Value
  | dict : List (String × Value) → Value

/-- The configuration mapping (Python dict with string keys). -/
abbrev Dict := List (String × Value)

/-- Python `d[k]` / `k in d`: lookup of the (first, and in a real dict
only) binding of key `k`. -/
def dictGet : Dict → String → Option Value
  | [], _ => none
  | (k', v) :: rest, k => if k' = k then some v else dictGet rest k

/-- Python `d[k] = v`: replace the binding of `k` in place if present,
otherwise append a new binding at the end (Python dict insertion order). -/
def dictInsert : Dict → String → Value → Dict
  | [], k, v => [(k, v)]
  | (k', v') :: rest, k, v =>
      if k' = k then (k, v) :: rest else (k', v') :: dictInsert rest k v

/-- Python truthiness of a `Value` (`if value:`). -/
def truthy : Value → Bool
  | .null => false
  | .bool b => b
  | .int n => n != 0
  | .str s => s != ""
  | .dict d => !d.isEmpty

/-- The error a construction can raise: `parseError` is the
`ValueError("Invalid YAML in config file: ...")` of
`_load_config_file` (the spec's `ConfigParseError`), `typeError` the
`AttributeError`/`TypeError` raised when the parsed file is not a
mapping, `envIntError` the `ValueError` raised by `int()` on a
non-numeric `LAMBDA_TIMEOUT`/`LAMBDA_MEMORY_SIZE` environment value. -/
inductive ConfigError where
  | parseError : String → ConfigError
  | typeError : ConfigError
  | envIntError : ConfigError

namespace Config

/-- Model of `Config._merge_config(base, overlay)`: for each `key, value` in the
overlay, in order — if the overlay value is a dict and the base holds a
dict at that key, recurse; otherwise `base[key] = value`. -/
def merge_config : Dict → Dict → Dict
  | base, [] => base
  | base, (k, Value.dict vd) :: rest =>
      match dictGet base k with
      | some (Value.dict bd) =>
          merge_config (dictInsert base k (Value.dict (merge_config bd vd))) rest
      | _ => merge_config (dictInsert base k (Value.dict vd)) rest
  | base, (k, v) :: rest => merge_config (dictInsert base k v) rest
termination_by _ overlay => sizeOf overlay
decreasing_by all_goals simp_wf <;> omega

/-- The loop of `Config.get`: walk the already-split key list, stepping
into a value only while it is a dict containing the segment, otherwise
returning the default. -/
def getKeys : Value → List String → Value → Value
  | v, [], _ => v
  | v, k :: ks, dflt =>
      match v with
      | Value.dict d =>
          match dictGet d k with
          | some v' => getKeys v' ks dflt
          | none => dflt
      | _ => dflt

/-- Model of `Config.get(key, default)`: split the key on dots and traverse. -/
def get (config : Dict) (key : String) (dflt : Value) : Value :=
  getKeys (Value.dict config) (pySplitDot key) dflt

/-- The loop of `Config.set` on the split key `k :: ks`: for each
non-final segment, step into the dict held there, creating an empty dict
when the segment is absent; assign at the final segment.  When a
non-final segment holds a non-dict the Python code raises `TypeError`
(`config = config[k]` leaves `config` a scalar and the next subscript
or membership test fails), modelled as `none`. -/
def setGo : Dict → String → List String → Value → Option Dict
  | d, k, [], v => some (dictInsert d k v)
  | d, k, k2 :: ks, v =>
      match dictGet d k with
      | some (Value.dict d2) =>
          (setGo d2 k2 ks v).map fun d2' => dictInsert d k (Value.dict d2')
      | some _ => none
      | none =>
          (setGo [] k2 ks v).map fun d2' => dictInsert d k (Value.dict d2')

/-- Model of `Config.set(key, value)`: split the key on dots (always a non-empty
list) and run the loop. -/
def set (config : Dict) (key : String) (v : Value) : Option Dict :=
  match pySplitDot key with
  | [] => none
  | k :: ks => setGo config k ks v

end Config

/-- The effective process environment seen by `os.getenv` in
`_load_env_vars` (after `load_dotenv` has, if a `.env` file exists,
already folded its entries into the process environment): a partial map
from variable names to values. -/
abbrev Env := String → Option String

/-- Python `os.getenv(name, dflt)`. -/
def getenvD (env : Env) (name dflt : String) : String :=
  (env name).getD dflt

/-- Value of `os.getenv(name)` placed into the tree: the string when present,
Python `None` when absent. -/
def envStr (env : Env) (name : String) : Value :=
  match env name with
  | some s => Value.str s
  | none => Value.null

/-- Models Python `int(s)` on the argument strings that occur here: an
optional sign followed by one or more decimal digits; everything else
raises `ValueError` (`none`).  (Python additionally strips surrounding
whitespace and allows underscore digit grouping, which no value here
uses.) -/
def pyInt (s : String) : Option Int :=
  match s.data with
  | '-' :: cs => (pyIntCore cs).map fun n => -(n : Int)
  | '+' :: cs => (pyIntCore cs).map fun n => (n : Int)
  | cs => (pyIntCore cs).map fun n => (n : Int)
where
  pyIntCore (cs : List Char) : Option Nat :=
    if cs ≠ [] ∧ cs.all Char.isDigit then
      some (cs.foldl (fun acc c => acc * 10 + (c.toNat - 48)) 0)
    else none

/-- Python `s.lower()` (character-wise lowering, as the values compared
here are ASCII). -/
def pyLower (s : String) : String :=
  String.mk (s.data.map Char.toLower)

namespace Config

/-- Model of `Config._load_env_vars`: build the environment-derived tree
(`self._config.update({...})` applied to the initially empty
`self._config`, hence exactly the literal).  The two `int(...)`
conversions can raise `ValueError` on non-numeric environment values,
hence the `Except`. -/
def load_env_vars (env : Env) : Except ConfigError Dict :=
  match pyInt (getenvD env "LAMBDA_TIMEOUT" "30"),
        pyInt (getenvD env "LAMBDA_MEMORY_SIZE" "128") with
  | some timeout, some memory =>
      Except.ok
        [("aws", Value.dict
            [("access_key_id", envStr env "AWS_ACCESS_KEY_ID"),
             ("secret_access_key", envStr env "AWS_SECRET_ACCESS_KEY"),
             ("session_token", envStr env "AWS_SESSION_TOKEN"),
             ("region", Value.str (getenvD env "AWS_DEFAULT_REGION" "us-east-1")),
             ("profile", envStr env "AWS_PROFILE")]),
         ("app", Value.dict
            [("log_level", Value.str (getenvD env "LOG_LEVEL" "INFO")),
             ("debug", Value.bool (pyLower (getenvD env "DEBUG" "false") == "true"))]),
         ("s3", Value.dict
            [("bucket_prefix", Value.str (getenvD env "S3_BUCKET_PREFIX" "aws-toolkit-")),
             ("encryption", Value.str (getenvD env "S3_ENCRYPTION" "AES256"))]),
         ("ec2", Value.dict
            [("key_pair_name", Value.str (getenvD env "EC2_KEY_PAIR_NAME" "aws-toolkit-keypair")),
             ("security_group", Value.str (getenvD env "EC2_SECURITY_GROUP" "aws-toolkit-sg"))]),
         ("lambda", Value.dict
            [("timeout", Value.int timeout),
             ("memory_size", Value.int memory)])]
  | _, _ => Except.error ConfigError.envIntError

/-- Model of `Config._load_config_file(config_file)`: open and parse the file,
deep-merging the parsed mapping onto the tree built so far.
`FileNotFoundError` (the file system returns `none`) is swallowed;
`yaml.YAMLError` is re-raised as
`ValueError("Invalid YAML in config file: " + diagnostic)` — the spec's
`ConfigParseError`; a file that parses to a non-mapping (e.g. a scalar
or an empty document) makes `_merge_config` call `.items()` on a
non-dict, an `AttributeError`. -/
def load_config_file (fs : String → Option String)
    (parse : String → Except String Value)
    (config : Dict) (config_file : String) : Except ConfigError Dict :=
  match fs config_file with
  | none => Except.ok config
  | some content =>
      match parse content with
      | Except.error e =>
          Except.error (ConfigError.parseError ("Invalid YAML in config file: " ++ e))
      | Except.ok (Value.dict fileConfig) =>
          Except.ok (merge_config config fileConfig)
      | Except.ok _ => Except.error ConfigError.typeError

/-- Model of `Config.__init__(config_file)`: start from the env-derived tree and,
when a config file was given (Python truthiness: `None` and `""` both
skip), overlay it. -/
def init (env : Env) (fs : String → Option String)
    (parse : String → Except String Value)
    (config_file : Option String) : Except ConfigError Dict :=
  match load_env_vars env with
  | Except.error e => Except.error e
  | Except.ok c =>
      match config_file with
      | none => Except.ok c
      | some f => if f = "" then Except.ok c else load_config_file fs parse c f

/-- The `Config.aws_config` property: the derived flat credential
mapping, built by four truthiness-guarded insertions into an initially
empty dict. -/
def aws_config (c : Dict) : Dict :=
  let a0 : Dict := []
  let a1 := if truthy (get c "aws.access_key_id" Value.null) then
      dictInsert a0 "aws_access_key_id" (get c "aws.access_key_id" Value.null)
    else a0
  let a2 := if truthy (get c "aws.secret_access_key" Value.null) then
      dictInsert a1 "aws_secret_access_key" (get c "aws.secret_access_key" Value.null)
    else a1
  let a3 := if truthy (get c "aws.session_token" Value.null) then
      dictInsert a2 "aws_session_token" (get c "aws.session_token" Value.null)
    else a2
  let a4 := if truthy (get c "aws.region" Value.null) then
      dictInsert a3 "region_name" (get c "aws.region" Value.null)
    else a3
  a4

end Config

/-! ## Spec-side predicates used to state the claims -/

/-- Spec-side description of a dot-path resolving in a tree: descend one
mapping level per segment; the value reached by the whole path is `v`. -/
inductive FindsPath : Value → List String → Value → Prop
  | nil (v : Value) : FindsPath v [] v
  | cons {d : Dict} {k : String} {u v : Value} {ks : List String} :
      dictGet d k = some u → FindsPath u ks v →
      FindsPath (Value.dict d) (k :: ks) v

/-- Spec-side description of the paths `set` can traverse: starting from
dict `d`, segment `k` followed by `ks`, every non-final segment either
resolves to a mapping or is absent (in which case an empty mapping is
created and traversal continues inside it). -/
inductive SetOk : Dict → String → List String → Prop
  | last (d : Dict) (k : String) : SetOk d k []
  | stepDict {d : Dict} {k : String} {d2 : Dict} {k2 : String} {ks : List String} :
      dictGet d k = some (Value.dict d2) → SetOk d2 k2 ks → SetOk d k (k2 :: ks)
  | stepNew {d : Dict} {k : String} {k2 : String} {ks : List String} :
      dictGet d k = none → SetOk ([] : Dict) k2 ks → SetOk d k (k2 :: ks)

/-- Two segment lists that differ at some position that both possess:
neither is a prefix of the other. -/
inductive Diverge : List String → List String → Prop
  | head {a b : String} {p q : List String} : a ≠ b → Diverge (a :: p) (b :: q)
  | cons {a : String} {p q : List String} : Diverge p q → Diverge (a :: p) (a :: q)

/-- Spec-side enumeration of the falsy Python values among the modeled
value shapes: `None`, `False`, `0`, `""` and `{}`.  (`truthy` is exactly
false on these — see `falsy_iff_not_truthy`.) -/
inductive Falsy : Value → Prop
  | null : Falsy Value.null
  | boolFalse : Falsy (Value.bool false)
  | intZero : Falsy (Value.int 0)
  | strEmpty : Falsy (Value.str "")
  | dictEmpty : Falsy (Value.dict [])

/-! ## Concrete fixtures used by the scenario claims -/

/-- Fixture: the empty process environment (every variable unset). -/
def envEmpty : Env := fun _ => none

/-- Fixture: an environment with only `AWS_DEFAULT_REGION` set. -/
def envRegion : Env :=
  fun n => if n = "AWS_DEFAULT_REGION" then some "eu-west-1" else none

/-- Fixture: an empty file system (every open raises
`FileNotFoundError`). -/
def fsEmpty : String → Option String := fun _ => none

/-- Fixture: a parser that is never consulted alongside `fsEmpty`. -/
def parseNone : String → Except String Value := fun _ => Except.error "unused"

/-- Fixture: a file system holding one YAML source that sets
`aws.region` to `ap-south-1`. -/
def fsRegion : String → Option String :=
  fun p => if p = "config.yml" then some "aws:\n  region: ap-south-1" else none

/-- Fixture: the parse of that source. -/
def parseRegion : String → Except String Value :=
  fun s => if s = "aws:\n  region: ap-south-1" then
      Except.ok (Value.dict [("aws", Value.dict [("region", Value.str "ap-south-1")])])
    else Except.error "unused"

/-- The tree `_load_env_vars` derives from the empty environment: all
compiled-in defaults. -/
def envEmptyTree : Dict :=
  [("aws", Value.dict
      [("access_key_id", Value.null), ("secret_access_key", Value.null),
       ("session_token", Value.null), ("region", Value.str "us-east-1"),
       ("profile", Value.null)]),
   ("app", Value.dict
      [("log_level", Value.str "INFO"), ("debug", Value.bool false)]),
   ("s3", Value.dict
      [("bucket_prefix", Value.str "aws-toolkit-"),
       ("encryption", Value.str "AES256")]),
   ("ec2", Value.dict
      [("key_pair_name", Value.str "aws-toolkit-keypair"),
       ("security_group", Value.str "aws-toolkit-sg")]),
   ("lambda", Value.dict
      [("timeout", Value.int 30), ("memory_size", Value.int 128)])]

/-- The tree `_load_env_vars` derives from `envRegion`. -/
def envRegionTree : Dict :=
  [("aws", Value.dict
      [("access_key_id", Value.null), ("secret_access_key", Value.null),
       ("session_token", Value.null), ("region", Value.str "eu-west-1"),
       ("profile", Value.null)]),
   ("app", Value.dict
      [("log_level", Value.str "INFO"), ("debug", Value.bool false)]),
   ("s3", Value.dict
      [("bucket_prefix", Value.str "aws-toolkit-"),
       ("encryption", Value.str "AES256")]),
   ("ec2", Value.dict
      [("key_pair_name", Value.str "aws-toolkit-keypair"),
       ("security_group", Value.str "aws-toolkit-sg")]),
   ("lambda", Value.dict
      [("timeout", Value.int 30), ("memory_size", Value.int 128)])]

/-- Tree `envRegionTree` after deep-merging the `fsRegion` overlay: only
`aws.region` changes. -/
def envRegionMergedTree : Dict :=
  [("aws", Value.dict
      [("access_key_id", Value.null), ("secret_access_key", Value.null),
       ("session_token", Value.null), ("region", Value.str "ap-south-1"),
       ("profile", Value.null)]),
   ("app", Value.dict
      [("log_level", Value.str "INFO"), ("debug", Value.bool false)]),
   ("s3", Value.dict
      [("bucket_prefix", Value.str "aws-toolkit-"),
       ("encryption", Value.str "AES256")]),
   ("ec2", Value.dict
      [("key_pair_name", Value.str "aws-toolkit-keypair"),
       ("security_group", Value.str "aws-toolkit-sg")]),
   ("lambda", Value.dict
      [("timeout", Value.int 30), ("memory_size", Value.int 128)])]

/-! ## Basic dictionary lemmas -/

theorem dictGet_dictInsert (d : Dict) (k k' : String) (v : Value) :
    dictGet (dictInsert d k v) k' = if k = k' then some v else dictGet d k' := by
  induction d with
  | nil => simp [dictGet, dictInsert]
  | cons kv rest ih =>
      obtain ⟨k1, v1⟩ := kv
      by_cases h1 : k1 = k
      · subst h1
        by_cases h2 : k1 = k' <;> simp [dictGet, dictInsert, h2]
      · by_cases h2 : k1 = k' <;> by_cases h3 : k = k' <;>
          simp_all [dictGet, dictInsert]

/-- The one-entry step of `_merge_config`, with the recursion exposed. -/
theorem merge_config_cons (A : Dict) (k : String) (v : Value) (rest : Dict) :
    Config.merge_config A ((k, v) :: rest) =
      Config.merge_config
        (match v, dictGet A k with
          | Value.dict vd, some (Value.dict bd) =>
              dictInsert A k (Value.dict (Config.merge_config bd vd))
          | _, _ => dictInsert A k v)
        rest := by
  cases v with
  | dict vd =>
      cases hbd : dictGet A k with
      | none => simp [Config.merge_config, hbd]
      | some bv => cases bv <;> simp [Config.merge_config, hbd]
  | null => simp [Config.merge_config]
  | bool b => simp [Config.merge_config]
  | int n => simp [Config.merge_config]
  | str s => simp [Config.merge_config]

/-- Keys not written by the overlay are untouched by `_merge_config`. -/
theorem dictGet_merge_of_notMem (B : Dict) (A : Dict) (k : String)
    (h : k ∉ B.map Prod.fst) :
    dictGet (Config.merge_config A B) k = dictGet A k := by
  induction B generalizing A with
  | nil => simp [Config.merge_config]
  | cons kv rest ih =>
      obtain ⟨k1, v1⟩ := kv
      simp only [List.map_cons, List.mem_cons] at h
      push_neg at h
      obtain ⟨hk1, hrest⟩ := h
      rw [merge_config_cons, ih _ hrest]
      have hne : ¬ (k1 = k) := fun e => hk1 e.symm
      cases v1 with
      | dict vd =>
          cases hbd : dictGet A k1 with
          | none => simp [hbd, dictGet_dictInsert, hne]
          | some bv => cases bv <;> simp [hbd, dictGet_dictInsert, hne]
      | null => simp [dictGet_dictInsert, hne]
      | bool b => simp [dictGet_dictInsert, hne]
      | int n => simp [dictGet_dictInsert, hne]
      | str s => simp [dictGet_dictInsert, hne]

/-- Full pointwise description of `_merge_config` for an overlay with
unique keys (a Python dict). -/
theorem dictGet_merge (B : Dict) (A : Dict)
    (hB : (B.map Prod.fst).Nodup) (k : String) :
    dictGet (Config.merge_config A B) k =
      match dictGet B k, dictGet A k with
      | some (Value.dict bd), some (Value.dict ad) =>
          some (Value.dict (Config.merge_config ad bd))
      | some bv, _ => some bv
      | none, _ => dictGet A k := by
  induction B generalizing A with
  | nil => simp [Config.merge_config, dictGet]
  | cons kv rest ih =>
      obtain ⟨k1, v1⟩ := kv
      rw [List.map_cons, List.nodup_cons] at hB
      obtain ⟨hk1, hrest⟩ := hB
      rw [merge_config_cons]
      by_cases hk : k1 = k
      · subst hk
        rw [dictGet_merge_of_notMem _ _ _ hk1]
        cases v1 with
        | dict vd =>
            cases hbd : dictGet A k1 with
            | none => simp [dictGet, hbd, dictGet_dictInsert]
            | some bv => cases bv <;> simp [dictGet, hbd, dictGet_dictInsert]
        | null => simp [dictGet, dictGet_dictInsert]
        | bool b => simp [dictGet, dictGet_dictInsert]
        | int n => simp [dictGet, dictGet_dictInsert]
        | str s => simp [dictGet, dictGet_dictInsert]
      · rw [ih _ hrest]
        have hgA : ∀ w, dictGet (dictInsert A k1 w) k = dictGet A k := by
          intro w
          rw [dictGet_dictInsert]
          simp [hk]
        have hgB : dictGet ((k1, v1) :: rest) k = dictGet rest k := by
          simp [dictGet, hk]
        rw [hgB]
        cases v1 with
        | dict vd =>
            cases hbd : dictGet A k1 with
            | none => simp [hbd, hgA]
            | some bv => cases bv <;> simp [hbd, hgA]
        | null => simp [hgA]
        | bool b => simp [hgA]
        | int n => simp [hgA]
        | str s => simp [hgA]

/-! ## Path-resolution predicates (spec side) and get/set lemmas -/


/-- The function `Config.get` returns the resolved value when the path resolves, and
the default otherwise. -/
theorem getKeys_spec (ks : List String) (w : Value) (dflt : Value) :
    (∃ v, FindsPath w ks v ∧ Config.getKeys w ks dflt = v)
    ∨ ((¬ ∃ v, FindsPath w ks v) ∧ Config.getKeys w ks dflt = dflt) := by
  induction ks generalizing w with
  | nil => exact Or.inl ⟨w, FindsPath.nil w, rfl⟩
  | cons k ks ih =>
      cases w with
      | dict d =>
          cases hu : dictGet d k with
          | some u =>
              rcases ih u with ⟨v, hf, he⟩ | ⟨hnf, he⟩
              · refine Or.inl ⟨v, FindsPath.cons hu hf, ?_⟩
                simpa [Config.getKeys, hu] using he
              · refine Or.inr ⟨?_, by simpa [Config.getKeys, hu] using he⟩
                rintro ⟨v, hf⟩
                cases hf with
                | cons hu' hf' =>
                    rw [hu] at hu'
                    cases hu'
                    exact hnf ⟨v, hf'⟩
          | none =>
              refine Or.inr ⟨?_, by simp [Config.getKeys, hu]⟩
              rintro ⟨v, hf⟩
              cases hf with
              | cons hu' _ => rw [hu] at hu'; cases hu'
      | null =>
          refine Or.inr ⟨?_, by simp [Config.getKeys]⟩
          rintro ⟨v, hf⟩
          cases hf
      | bool b =>
          refine Or.inr ⟨?_, by simp [Config.getKeys]⟩
          rintro ⟨v, hf⟩
          cases hf
      | int n =>
          refine Or.inr ⟨?_, by simp [Config.getKeys]⟩
          rintro ⟨v, hf⟩
          cases hf
      | str s =>
          refine Or.inr ⟨?_, by simp [Config.getKeys]⟩
          rintro ⟨v, hf⟩
          cases hf

/-- After a successful `setGo`, reading back the same path yields the
written value. -/
theorem setGo_getKeys (ks : List String) (d : Dict) (k : String)
    (v dflt : Value) (d' : Dict) (h : Config.setGo d k ks v = some d') :
    Config.getKeys (Value.dict d') (k :: ks) dflt = v := by
  induction ks generalizing d k d' with
  | nil =>
      simp only [Config.setGo, Option.some.injEq] at h
      subst h
      simp [Config.getKeys, dictGet_dictInsert]
  | cons k2 ks ih =>
      simp only [Config.setGo] at h
      cases hd : dictGet d k with
      | some bv =>
          cases bv with
          | dict d2 =>
              rw [hd] at h
              simp only [Option.map_eq_some'] at h
              obtain ⟨d2', h2, hins⟩ := h
              subst hins
              have := ih d2 k2 d2' h2
              simpa [Config.getKeys, dictGet_dictInsert] using this
          | null => rw [hd] at h; simp at h
          | bool b => rw [hd] at h; simp at h
          | int n => rw [hd] at h; simp at h
          | str s => rw [hd] at h; simp at h
      | none =>
          rw [hd] at h
          simp only [Option.map_eq_some'] at h
          obtain ⟨d2', h2, hins⟩ := h
          subst hins
          have := ih [] k2 d2' h2
          simpa [Config.getKeys, dictGet_dictInsert] using this


/-- The loop `setGo` succeeds exactly on the paths described by `SetOk`. -/
theorem setGo_isSome_iff (ks : List String) (d : Dict) (k : String) (v : Value) :
    (Config.setGo d k ks v).isSome = true ↔ SetOk d k ks := by
  induction ks generalizing d k with
  | nil =>
      simp only [Config.setGo]
      exact ⟨fun _ => SetOk.last d k, fun _ => rfl⟩
  | cons k2 ks ih =>
      constructor
      · intro h
        simp only [Config.setGo] at h
        cases hd : dictGet d k with
        | some bv =>
            cases bv with
            | dict d2 =>
                simp only [hd] at h
                cases hgo : Config.setGo d2 k2 ks v with
                | none => rw [hgo] at h; simp at h
                | some d2' =>
                    exact SetOk.stepDict hd ((ih d2 k2).mp (by rw [hgo]; rfl))
            | null => simp [hd] at h
            | bool b => simp [hd] at h
            | int n => simp [hd] at h
            | str s => simp [hd] at h
        | none =>
            simp only [hd] at h
            cases hgo : Config.setGo [] k2 ks v with
            | none => rw [hgo] at h; simp at h
            | some d2' =>
                exact SetOk.stepNew hd ((ih [] k2).mp (by rw [hgo]; rfl))
      · intro h
        cases h with
        | stepDict hd hok =>
            have hs := (ih _ _).mpr hok
            cases hgo : Config.setGo _ k2 ks v with
            | none => rw [hgo] at hs; simp at hs
            | some d2' => simp [Config.setGo, hd, hgo]
        | stepNew hd hok =>
            have hs := (ih _ _).mpr hok
            cases hgo : Config.setGo [] k2 ks v with
            | none => rw [hgo] at hs; simp at hs
            | some d2' => simp [Config.setGo, hd, hgo]

/-- A successful `setGo` only rewrites the binding of its first segment. -/
theorem setGo_shape (ks : List String) (d : Dict) (k : String) (v : Value)
    (d' : Dict) (h : Config.setGo d k ks v = some d') :
    ∃ w, d' = dictInsert d k w := by
  cases ks with
  | nil =>
      refine ⟨v, ?_⟩
      simp only [Config.setGo, Option.some.injEq] at h
      exact h.symm
  | cons k2 ks =>
      simp only [Config.setGo] at h
      cases hd : dictGet d k with
      | some bv =>
          cases bv with
          | dict d2 =>
              simp only [hd, Option.map_eq_some'] at h
              obtain ⟨d2', _, hins⟩ := h
              exact ⟨Value.dict d2', hins.symm⟩
          | null => simp [hd] at h
          | bool b => simp [hd] at h
          | int n => simp [hd] at h
          | str s => simp [hd] at h
      | none =>
          simp only [hd, Option.map_eq_some'] at h
          obtain ⟨d2', _, hins⟩ := h
          exact ⟨Value.dict d2', hins.symm⟩


/-- Frame property of the `set` loop: a successful write along `k :: ks`
does not change the value read along any diverging path `q`. -/
theorem setGo_frame (ks : List String) (d : Dict) (k : String) (v : Value)
    (d' : Dict) (q : List String) (dflt : Value)
    (h : Config.setGo d k ks v = some d') (hdiv : Diverge (k :: ks) q) :
    Config.getKeys (Value.dict d') q dflt = Config.getKeys (Value.dict d) q dflt := by
  induction ks generalizing d k d' q with
  | nil =>
      cases hdiv with
      | head hne =>
          simp only [Config.setGo, Option.some.injEq] at h
          subst h
          simp [Config.getKeys, dictGet_dictInsert, hne]
      | cons hdiv2 => cases hdiv2
  | cons k2 ks ih =>
      cases hdiv with
      | head hne =>
          obtain ⟨w, hw⟩ := setGo_shape _ _ _ _ _ h
          subst hw
          simp [Config.getKeys, dictGet_dictInsert, hne]
      | cons hdiv2 =>
          simp only [Config.setGo] at h
          cases hd : dictGet d k with
          | some bv =>
              cases bv with
              | dict d2 =>
                  simp only [hd, Option.map_eq_some'] at h
                  obtain ⟨d2', hgo, hins⟩ := h
                  subst hins
                  have hrec := ih d2 k2 d2' _ hgo hdiv2
                  simpa [Config.getKeys, dictGet_dictInsert, hd] using hrec
              | null => simp [hd] at h
              | bool b => simp [hd] at h
              | int n => simp [hd] at h
              | str s => simp [hd] at h
          | none =>
              rename_i q2
              simp only [hd, Option.map_eq_some'] at h
              obtain ⟨d2', hgo, hins⟩ := h
              subst hins
              have hrec := ih [] k2 d2' q2 hgo hdiv2
              obtain ⟨c, cs, hq⟩ : ∃ c cs, q2 = c :: cs := by
                cases hdiv2 <;> exact ⟨_, _, rfl⟩
              subst hq
              have hins2 : dictGet (dictInsert d k (Value.dict d2')) k
                  = some (Value.dict d2') := by
                simp [dictGet_dictInsert]
              calc Config.getKeys (Value.dict (dictInsert d k (Value.dict d2')))
                    (k :: c :: cs) dflt
                  = Config.getKeys (Value.dict d2') (c :: cs) dflt := by
                    simp [Config.getKeys, hins2]
                _ = Config.getKeys (Value.dict []) (c :: cs) dflt := hrec
                _ = dflt := by simp [Config.getKeys, dictGet]
                _ = Config.getKeys (Value.dict d) (k :: c :: cs) dflt := by
                    simp [Config.getKeys, hd]

/-! ## Pointwise description of the derived credential view -/

/-- The `Falsy` enumeration captures exactly the values on which Python
truthiness — the guard `if value:` of `aws_config` — is false. -/
theorem falsy_iff_not_truthy (v : Value) : Falsy v ↔ truthy v = false := by
  constructor
  · intro h
    cases h <;> simp [truthy]
  · intro h
    cases v with
    | null => exact Falsy.null
    | bool b =>
        cases b with
        | false => exact Falsy.boolFalse
        | true => simp [truthy] at h
    | int n =>
        have hn : n = 0 := by simpa [truthy] using h
        rw [hn]
        exact Falsy.intZero
    | str s =>
        have hs : s = "" := by simpa [truthy] using h
        rw [hs]
        exact Falsy.strEmpty
    | dict d =>
        cases d with
        | nil => exact Falsy.dictEmpty
        | cons kv rest => simp [truthy] at h

theorem aws_config_get_akid (c : Dict) :
    dictGet (Config.aws_config c) "aws_access_key_id" =
      if truthy (Config.get c "aws.access_key_id" Value.null) then
        some (Config.get c "aws.access_key_id" Value.null) else none := by
  simp only [Config.aws_config]
  split_ifs <;> simp_all [dictGet, dictInsert]

theorem aws_config_get_secret (c : Dict) :
    dictGet (Config.aws_config c) "aws_secret_access_key" =
      if truthy (Config.get c "aws.secret_access_key" Value.null) then
        some (Config.get c "aws.secret_access_key" Value.null) else none := by
  simp only [Config.aws_config]
  split_ifs <;> simp_all [dictGet, dictInsert]

theorem aws_config_get_token (c : Dict) :
    dictGet (Config.aws_config c) "aws_session_token" =
      if truthy (Config.get c "aws.session_token" Value.null) then
        some (Config.get c "aws.session_token" Value.null) else none := by
  simp only [Config.aws_config]
  split_ifs <;> simp_all [dictGet, dictInsert]

theorem aws_config_get_region (c : Dict) :
    dictGet (Config.aws_config c) "region_name" =
      if truthy (Config.get c "aws.region" Value.null) then
        some (Config.get c "aws.region" Value.null) else none := by
  simp only [Config.aws_config]
  split_ifs <;> simp_all [dictGet, dictInsert]

theorem aws_config_keys (c : Dict) :
    ∀ kv ∈ Config.aws_config c,
      kv.1 = "aws_access_key_id" ∨ kv.1 = "aws_secret_access_key" ∨
      kv.1 = "aws_session_token" ∨ kv.1 = "region_name" := by
  intro kv hkv
  simp only [Config.aws_config] at hkv
  split_ifs at hkv <;> simp [dictInsert] at hkv <;>
    rcases hkv with h | h | h | h <;> simp_all

/-! ## Claim theorems -/

/-- C1: deep merge — for every pair of mappings `A`, `B` (the overlay `B`
having the unique keys of a Python dict) and every key: if both hold a
mapping at the key the merge recurses; otherwise `B`'s value replaces
`A`'s entirely; keys only in `A` are preserved.  In particular merging
`{a: {x: 1, y: 2}}` with `{a: {x: 9}}` yields `{a: {x: 9, y: 2}}`, and
merging `{a: {x: 1}}` with `{a: 9}` yields `{a: 9}`. -/
theorem C1_deep_merge (A B : Dict) (hB : (B.map Prod.fst).Nodup) (k : String) :
    (dictGet (Config.merge_config A B) k =
      match dictGet B k, dictGet A k with
      | some (Value.dict bd), some (Value.dict ad) =>
          some (Value.dict (Config.merge_config ad bd))
      | some bv, _ => some bv
      | none, _ => dictGet A k)
    ∧ Config.merge_config
        [("a", Value.dict [("x", Value.int 1), ("y", Value.int 2)])]
        [("a", Value.dict [("x", Value.int 9)])]
        = [("a", Value.dict [("x", Value.int 9), ("y", Value.int 2)])]
    ∧ Config.merge_config
        [("a", Value.dict [("x", Value.int 1)])]
        [("a", Value.int 9)]
        = [("a", Value.int 9)] := by
  refine ⟨dictGet_merge B A hB k, ?_, ?_⟩
  · simp [Config.merge_config, dictGet, dictInsert]
  · simp [Config.merge_config, dictGet, dictInsert]

/-- Witness for C1 at `A = {a: {x: 1, y: 2}}`, `B = {a: {x: 9}}`,
`k = "a"`: both sides hold a mapping, so the merge recurses. -/
theorem C1_deep_merge_witness :
    dictGet (Config.merge_config
        [("a", Value.dict [("x", Value.int 1), ("y", Value.int 2)])]
        [("a", Value.dict [("x", Value.int 9)])]) "a" =
      some (Value.dict (Config.merge_config
        [("x", Value.int 1), ("y", Value.int 2)] [("x", Value.int 9)])) := by
  have h := C1_deep_merge
      [("a", Value.dict [("x", Value.int 1), ("y", Value.int 2)])]
      [("a", Value.dict [("x", Value.int 9)])]
      (by simp) "a"
  simpa [dictGet] using h.1

/-- C2, counterexample: the write-then-read identity is claimed for
*every* tree and dot-path, but when a non-final segment holds a scalar
(`{a: 1}` with path `a.b`) the Python `set` raises `TypeError` — no tree
is produced at all, so `set` followed by `get` cannot return the written
value there. -/
theorem C2_write_read_counterexample :
    Config.set [("a", Value.int 1)] "a.b" (Value.int 2) = none := rfl

/-- C2 as amended: on every tree and dot-path on which `set` succeeds
(equivalently, by C4, whose non-final segments each resolve to a mapping
or are absent — `set` creates an empty mapping at each absent non-final
segment and overwrites the final segment), reading the path back returns
the written value for any default. -/
theorem C2_write_read (T : Dict) (p : String) (v dflt : Value) (T' : Dict)
    (h : Config.set T p v = some T') : Config.get T' p dflt = v := by
  unfold Config.set at h
  unfold Config.get
  cases hsp : pySplitDot p with
  | nil => rw [hsp] at h; simp at h
  | cons k ks =>
      rw [hsp] at h
      exact setGo_getKeys ks T k v dflt T' h

/-- Witness for C2 at `T = {}`, `p = "a.b"`, `v = 1`. -/
theorem C2_write_read_witness :
    Config.get [("a", Value.dict [("b", Value.int 1)])] "a.b" Value.null
      = Value.int 1 :=
  C2_write_read [] "a.b" (Value.int 1) Value.null
    [("a", Value.dict [("b", Value.int 1)])] rfl

/-- C3: `get` is total (it is a Lean function — the Python loop guards
every subscript by `isinstance(value, dict) and k in value`, so it has
no failure path) and returns the resolved value when the dot-path
resolves (spec-side relation `FindsPath`), and the supplied default as
soon as a segment is missing or a non-final segment is a non-mapping
(i.e. whenever no resolution exists). -/
theorem C3_get_total (c : Dict) (p : String) (dflt : Value) :
    (∃ v, FindsPath (Value.dict c) (pySplitDot p) v ∧ Config.get c p dflt = v)
    ∨ ((¬ ∃ v, FindsPath (Value.dict c) (pySplitDot p) v)
        ∧ Config.get c p dflt = dflt) :=
  getKeys_spec (pySplitDot p) (Value.dict c) dflt

/-- C4, counterexample: the resolver has failure paths beyond
`ConfigParseError` on a malformed supplied source — (i) `set` raises
`TypeError` when a non-final segment resolves to a scalar; (ii)
construction raises `ValueError` from `int()` when `LAMBDA_TIMEOUT` is
non-numeric, with no source supplied at all; (iii) construction raises
`AttributeError` when an existing, readable source parses to a
non-mapping (e.g. the document `42`). -/
theorem C4_totality_counterexample :
    Config.set [("x", Value.dict []), ("a", Value.int 5)] "a.b.c"
        (Value.str "v") = none
    ∧ Config.init (fun n => if n = "LAMBDA_TIMEOUT" then some "abc" else none)
        (fun _ => none) (fun _ => Except.error "e") none
        = Except.error ConfigError.envIntError
    ∧ Config.init (fun _ => none) (fun _ => some "42")
        (fun _ => Except.ok (Value.int 42)) (some "cfg.yml")
        = Except.error ConfigError.typeError :=
  ⟨rfl, rfl, rfl⟩

/-- C4 as amended: `get` and the derived credential view are total, but
`set` succeeds precisely on the dot-paths whose non-final segments each
resolve to a mapping or are absent (`SetOk`), raising `TypeError`
otherwise; and construction can also fail on a non-integer
`LAMBDA_TIMEOUT`/`LAMBDA_MEMORY_SIZE` environment value or a source
parsing to a non-mapping, as the counterexample records. -/
theorem C4_set_totality (T : Dict) (p : String) (v : Value) :
    (Config.set T p v).isSome = true ↔
      ∃ k ks, pySplitDot p = k :: ks ∧ SetOk T k ks := by
  unfold Config.set
  cases hsp : pySplitDot p with
  | nil => simp
  | cons k ks =>
      simp only [List.cons.injEq]
      constructor
      · intro h
        exact ⟨k, ks, ⟨rfl, rfl⟩, (setGo_isSome_iff ks T k v).mp h⟩
      · rintro ⟨k', ks', ⟨h1, h2⟩, hok⟩
        subst h1
        subst h2
        exact (setGo_isSome_iff ks T k v).mpr hok

/-- C5: constructing with a source that exists but fails to parse raises
the parse error carrying the diagnostic (`ValueError("Invalid YAML in
config file: ...")`, the spec's `ConfigParseError`), and no tree is
produced — the error is the construction's result, not retried or
recovered.  (The environment-loading hypothesis pins construction down
to the file step.) -/
theorem C5_parse_failure (env : Env) (fs : String → Option String)
    (parse : String → Except String Value) (path content e : String) (c : Dict)
    (henv : Config.load_env_vars env = Except.ok c)
    (hpath : path ≠ "")
    (hfs : fs path = some content)
    (hparse : parse content = Except.error e) :
    Config.init env fs parse (some path) =
      Except.error (ConfigError.parseError ("Invalid YAML in config file: " ++ e)) := by
  unfold Config.init
  rw [henv]
  simp only [if_neg hpath]
  unfold Config.load_config_file
  simp [hfs, hparse]

/-- Witness for C5: a one-file file system holding an unparsable
document. -/
theorem C5_parse_failure_witness :
    Config.init envEmpty
      (fun p => if p = "bad.yml" then some "a: b: c" else none)
      (fun s => if s = "a: b: c" then
          Except.error "mapping values are not allowed here" else Except.ok (Value.dict []))
      (some "bad.yml") =
      Except.error (ConfigError.parseError
        ("Invalid YAML in config file: " ++ "mapping values are not allowed here")) :=
  C5_parse_failure envEmpty _ _ "bad.yml" "a: b: c"
    "mapping values are not allowed here" envEmptyTree rfl (by decide) rfl rfl

/-- C6: a nonexistent source path is silently skipped —
construction with it yields exactly the tree of a construction with no
source path at all. -/
theorem C6_missing_source (env : Env) (fs : String → Option String)
    (parse : String → Except String Value) (path : String)
    (hfs : fs path = none) :
    Config.init env fs parse (some path) = Config.init env fs parse none := by
  unfold Config.init
  cases henv : Config.load_env_vars env with
  | error e => rfl
  | ok c =>
      by_cases hp : path = ""
      · subst hp; rfl
      · simp only [if_neg hp]
        unfold Config.load_config_file
        rw [hfs]

/-- Witness for C6 on an empty file system. -/
theorem C6_missing_source_witness :
    Config.init envEmpty fsEmpty parseNone (some "missing.yml")
      = Config.init envEmpty fsEmpty parseNone none :=
  C6_missing_source envEmpty fsEmpty parseNone "missing.yml" rfl

/-- C7: layer precedence for `aws.region` — `"us-east-1"` with
`AWS_DEFAULT_REGION` unset; `"eu-west-1"` with it set and no source;
`"ap-south-1"` with additionally a source overlaying `aws.region`, the
file overlay beating the environment. -/
theorem C7_layer_precedence :
    (Config.init envEmpty fsEmpty parseNone none).map
      (fun c => Config.get c "aws.region" Value.null)
      = Except.ok (Value.str "us-east-1")
    ∧ (Config.init envRegion fsEmpty parseNone none).map
      (fun c => Config.get c "aws.region" Value.null)
      = Except.ok (Value.str "eu-west-1")
    ∧ (Config.init envRegion fsRegion parseRegion (some "config.yml")).map
      (fun c => Config.get c "aws.region" Value.null)
      = Except.ok (Value.str "ap-south-1") := by
  refine ⟨rfl, rfl, ?_⟩
  have h1 : Config.init envRegion fsRegion parseRegion (some "config.yml")
      = Except.ok (Config.merge_config envRegionTree
          [("aws", Value.dict [("region", Value.str "ap-south-1")])]) := rfl
  have h2 : Config.merge_config envRegionTree
      [("aws", Value.dict [("region", Value.str "ap-south-1")])]
      = envRegionMergedTree := by
    simp [Config.merge_config, dictGet, dictInsert, envRegionTree,
      envRegionMergedTree]
  rw [h1, h2]
  rfl

/-- C8: the derived credential view holds at most the four recognized
entries under their output names; an entry is dropped entirely (not kept
with a null value) whenever its source path resolves to null; a present
entry carries exactly the source path's value. -/
theorem C8_credential_view (c : Dict) :
    (∀ kv ∈ Config.aws_config c,
        kv.1 = "aws_access_key_id" ∨ kv.1 = "aws_secret_access_key" ∨
        kv.1 = "aws_session_token" ∨ kv.1 = "region_name")
    ∧ ((Config.get c "aws.access_key_id" Value.null = Value.null →
          dictGet (Config.aws_config c) "aws_access_key_id" = none)
      ∧ (Config.get c "aws.secret_access_key" Value.null = Value.null →
          dictGet (Config.aws_config c) "aws_secret_access_key" = none)
      ∧ (Config.get c "aws.session_token" Value.null = Value.null →
          dictGet (Config.aws_config c) "aws_session_token" = none)
      ∧ (Config.get c "aws.region" Value.null = Value.null →
          dictGet (Config.aws_config c) "region_name" = none))
    ∧ ((dictGet (Config.aws_config c) "aws_access_key_id" = none ∨
          dictGet (Config.aws_config c) "aws_access_key_id"
            = some (Config.get c "aws.access_key_id" Value.null))
      ∧ (dictGet (Config.aws_config c) "aws_secret_access_key" = none ∨
          dictGet (Config.aws_config c) "aws_secret_access_key"
            = some (Config.get c "aws.secret_access_key" Value.null))
      ∧ (dictGet (Config.aws_config c) "aws_session_token" = none ∨
          dictGet (Config.aws_config c) "aws_session_token"
            = some (Config.get c "aws.session_token" Value.null))
      ∧ (dictGet (Config.aws_config c) "region_name" = none ∨
          dictGet (Config.aws_config c) "region_name"
            = some (Config.get c "aws.region" Value.null))) := by
  refine ⟨aws_config_keys c, ⟨?_, ?_, ?_, ?_⟩, ⟨?_, ?_, ?_, ?_⟩⟩
  · intro h; rw [aws_config_get_akid, h]; simp [truthy]
  · intro h; rw [aws_config_get_secret, h]; simp [truthy]
  · intro h; rw [aws_config_get_token, h]; simp [truthy]
  · intro h; rw [aws_config_get_region, h]; simp [truthy]
  · rw [aws_config_get_akid]; split_ifs <;> simp
  · rw [aws_config_get_secret]; split_ifs <;> simp
  · rw [aws_config_get_token]; split_ifs <;> simp
  · rw [aws_config_get_region]; split_ifs <;> simp

/-- Witness for C8 at the empty configuration: all four source paths
resolve to null, so the session-token entry is absent. -/
theorem C8_credential_view_witness :
    dictGet (Config.aws_config []) "aws_session_token" = none :=
  (C8_credential_view []).2.1.2.2.1 rfl

/-- C9 (implicit in the code's truthiness test): the credential view
omits an entry whenever its source value is *falsy* — any of `None`,
`False`, `0`, `""`, `{}`, the values on which the Python guard
`if value:` is false (`falsy_iff_not_truthy`) — not only when it is
null; in particular when it is the empty string or zero. -/
theorem C9_falsy_omitted (c : Dict) :
    (Falsy (Config.get c "aws.access_key_id" Value.null) →
        dictGet (Config.aws_config c) "aws_access_key_id" = none)
    ∧ (Falsy (Config.get c "aws.secret_access_key" Value.null) →
        dictGet (Config.aws_config c) "aws_secret_access_key" = none)
    ∧ (Falsy (Config.get c "aws.session_token" Value.null) →
        dictGet (Config.aws_config c) "aws_session_token" = none)
    ∧ (Falsy (Config.get c "aws.region" Value.null) →
        dictGet (Config.aws_config c) "region_name" = none) := by
  refine ⟨?_, ?_, ?_, ?_⟩
  · intro h; rw [aws_config_get_akid, (falsy_iff_not_truthy _).mp h]; simp
  · intro h; rw [aws_config_get_secret, (falsy_iff_not_truthy _).mp h]; simp
  · intro h; rw [aws_config_get_token, (falsy_iff_not_truthy _).mp h]; simp
  · intro h; rw [aws_config_get_region, (falsy_iff_not_truthy _).mp h]; simp

/-- Witness for C9: an access key configured as the empty string, a
session token configured as `0` and a region configured as `False` are
all dropped from the view. -/
theorem C9_falsy_omitted_witness :
    dictGet (Config.aws_config
      [("aws", Value.dict [("access_key_id", Value.str ""),
        ("session_token", Value.int 0), ("region", Value.bool false)])])
      "aws_access_key_id" = none
    ∧ dictGet (Config.aws_config
      [("aws", Value.dict [("access_key_id", Value.str ""),
        ("session_token", Value.int 0), ("region", Value.bool false)])])
      "aws_session_token" = none
    ∧ dictGet (Config.aws_config
      [("aws", Value.dict [("access_key_id", Value.str ""),
        ("session_token", Value.int 0), ("region", Value.bool false)])])
      "region_name" = none :=
  ⟨(C9_falsy_omitted [("aws", Value.dict [("access_key_id", Value.str ""),
      ("session_token", Value.int 0), ("region", Value.bool false)])]).1
      Falsy.strEmpty,
   (C9_falsy_omitted [("aws", Value.dict [("access_key_id", Value.str ""),
      ("session_token", Value.int 0), ("region", Value.bool false)])]).2.2.1
      Falsy.intZero,
   (C9_falsy_omitted [("aws", Value.dict [("access_key_id", Value.str ""),
      ("session_token", Value.int 0), ("region", Value.bool false)])]).2.2.2
      Falsy.boolFalse⟩

/-- C10, counterexample: the claim exempts only `p` itself and paths
addressed through `p`'s final segment, but a *proper prefix* of `p` also
observes the write — with `T = {}`, `p = "a.b"`, `q = "a"`, the path `q`
is neither `p` nor an extension of `p` (its segment list `["a"]` does not
begin with `p`'s `["a", "b"]`), yet `get(q)` changes from the default to
the newly created mapping `{b: 1}`. -/
theorem C10_frame_counterexample :
    Config.set [] "a.b" (Value.int 1)
        = some [("a", Value.dict [("b", Value.int 1)])]
    ∧ "a" ≠ "a.b"
    ∧ (¬ ∃ rest : List String, pySplitDot "a" = pySplitDot "a.b" ++ rest)
    ∧ Config.get [] "a" Value.null = Value.null
    ∧ Config.get [("a", Value.dict [("b", Value.int 1)])] "a" Value.null
        = Value.dict [("b", Value.int 1)]
    ∧ Value.dict [("b", Value.int 1)] ≠ Value.null := by
  refine ⟨rfl, by decide, ?_, rfl, rfl, fun h => Value.noConfusion h⟩
  rintro ⟨rest, h⟩
  have hl := congrArg List.length h
  have h1 : (pySplitDot "a").length = 1 := rfl
  have h2 : (pySplitDot "a.b").length = 2 := rfl
  rw [h1, List.length_append, h2] at hl
  omega

/-- C10 as amended: a successful `set` along `p` leaves `get` unchanged
on every path `q` that *diverges* from `p` — differs at some segment
both paths possess — i.e. every `q` that is neither an extension of `p`
(including `p` itself) nor a prefix of `p`.  (Prefixes of `p` can
observe the write, as the counterexample shows.) -/
theorem C10_set_frame (T : Dict) (p q : String) (v dflt : Value) (T' : Dict)
    (h : Config.set T p v = some T')
    (hdiv : Diverge (pySplitDot p) (pySplitDot q)) :
    Config.get T' q dflt = Config.get T q dflt := by
  unfold Config.set at h
  unfold Config.get
  cases hsp : pySplitDot p with
  | nil => rw [hsp] at h; simp at h
  | cons k ks =>
      rw [hsp] at h
      rw [hsp] at hdiv
      exact setGo_frame ks T k v T' _ dflt h hdiv

/-- Witness for C10: writing `a.b` leaves the sibling `a.x` unchanged. -/
theorem C10_set_frame_witness :
    Config.get [("a", Value.dict [("x", Value.int 7), ("b", Value.int 1)])]
      "a.x" Value.null = Value.int 7 := by
  have h := C10_set_frame [("a", Value.dict [("x", Value.int 7)])] "a.b" "a.x"
      (Value.int 1) Value.null
      [("a", Value.dict [("x", Value.int 7), ("b", Value.int 1)])] rfl
      (Diverge.cons (Diverge.head (by decide)))
  rw [h]
  rfl
